import Mathlib

/-!
Verification of the coffee-store server (`src/index.js`), an Express + MongoDB
CRUD backend. The file shallowly embeds the data model (BSON-ish documents as
association lists), the MongoDB collection operations the handlers invoke
(`insertOne`, `findOne`, `deleteOne`, `updateOne` with `$set` and `upsert`),
the `ObjectId` string parsing performed on path identifiers, and each route
handler as a pure state-passing function over the two collections
(`coffee` and `user` of database `coffeeDB`). The startup control flow
(`run().catch(console.dir)` followed by `app.listen`) is embedded as well.
-/

set_option autoImplicit false

namespace CoffeeStore

/-- BSON-ish values stored in documents and appearing in JSON request bodies.
`oid` is a MongoDB ObjectId, carried as its canonical lowercase 24-hex-char
string. `null` is BSON null (also what the driver writes for a JavaScript
`undefined` field value under its default `ignoreUndefined := false`). -/
inductive BVal where
  | null
  | bool (b : Bool)
  | num (n : Int)
  | str (s : String)
  | oid (o : String)
deriving DecidableEq, Repr

/-- A document / JSON object: an association list of field name to value
(JavaScript objects have no duplicate keys, but nothing here relies on it). -/
abbrev Doc := List (String × BVal)

/-- Field access: the value of field `k` in document `d`, `none` when the
field is absent (JavaScript `undefined`). -/
def lookupField (d : Doc) (k : String) : Option BVal :=
  (d.find? (fun p => p.1 == k)).map (fun p => p.2)

/-- The list of field names present in a document. -/
def fieldKeys (d : Doc) : List String :=
  d.map (fun p => p.1)

/-- MongoDB `$set` of a single field: overwrite the field in place when
present, append it otherwise. -/
def setField : Doc → String → BVal → Doc
  | [], k, v => [(k, v)]
  | p :: ps, k, v => if p.1 == k then (k, v) :: ps else p :: setField ps k v

/-- Apply a `$set` document (a list of field/value pairs) to a document,
left to right. -/
def applySet (d : Doc) (sets : List (String × BVal)) : Doc :=
  sets.foldl (fun acc p => setField acc p.1 p.2) d

/-- A character the ObjectId constructor accepts as a hex digit. -/
def isHexChar (c : Char) : Bool :=
  c.isDigit || ('a' ≤ c && c ≤ 'f') || ('A' ≤ c && c ≤ 'F')

/-- Validity check of the driver's `ObjectId` constructor on a string
argument: exactly 24 hexadecimal characters. -/
def isValidObjectIdHex (s : String) : Bool :=
  s.length == 24 && s.toList.all isHexChar

/-- Lowercase an upper-case hex digit (the parsed ObjectId bytes do not
remember the case of the input hex string). -/
def hexCharLower (c : Char) : Char :=
  if 'A' ≤ c && c ≤ 'F' then Char.ofNat (c.toNat + 32) else c

/-- Canonical (lowercase) form of a hex string. -/
def hexLower (s : String) : String :=
  ⟨s.toList.map hexCharLower⟩

/-- `new ObjectId(id)` in the handlers: parses the path identifier string.
A valid 24-hex-char string yields the ObjectId (canonicalised to lowercase,
since ObjectId equality is byte equality); anything else throws a `BSONError`
synchronously, embedded as `Except.error`. -/
def objectIdMake (s : String) : Except String String :=
  if isValidObjectIdHex s then .ok (hexLower s)
  else .error "BSONError: input must be a 24 character hex string"

/-- The query `{ _id: new ObjectId(o) }`: does document `d` match? -/
def matchesId (o : String) (d : Doc) : Bool :=
  lookupField d "_id" == some (.oid o)

/-- Result object of `insertOne`. -/
structure InsertOneResult where
  acknowledged : Bool
  insertedId : BVal
deriving DecidableEq, Repr

/-- Result object of `deleteOne`. -/
structure DeleteResult where
  acknowledged : Bool
  deletedCount : Nat
deriving DecidableEq, Repr

/-- Result object of `updateOne`. -/
structure UpdateResult where
  acknowledged : Bool
  matchedCount : Nat
  modifiedCount : Nat
  upsertedCount : Nat
  upsertedId : Option String
deriving DecidableEq, Repr

/-- `collection.insertOne(doc)`: when the document has no `_id` field the
driver generates a fresh ObjectId (`genId`, canonical lowercase hex, unique
by the store's `_id` index) and stores it on the document; a caller-supplied
`_id` is kept as given. The result carries the inserted `_id`. -/
def insertOne (coll : List Doc) (d : Doc) (genId : String) :
    List Doc × InsertOneResult :=
  match lookupField d "_id" with
  | some v => (coll ++ [d], ⟨true, v⟩)
  | none => (coll ++ [("_id", .oid genId) :: d], ⟨true, .oid genId⟩)

/-- `collection.findOne({ _id: o })`: the first document matching the query,
`null` (here `none`) when there is none. -/
def findOneById (coll : List Doc) (o : String) : Option Doc :=
  coll.find? (matchesId o)

/-- `collection.deleteOne({ _id: o })`: removes the first matching document,
reporting how many were deleted. -/
def deleteOneById (coll : List Doc) (o : String) : List Doc × DeleteResult :=
  match coll.find? (matchesId o) with
  | some _ => (coll.eraseP (matchesId o), ⟨true, 1⟩)
  | none => (coll, ⟨true, 0⟩)

/-- Replace the first element satisfying `p` by its image under `f`. -/
def updateFirst {α : Type} (p : α → Bool) (f : α → α) : List α → List α
  | [] => []
  | d :: ds => if p d then f d :: ds else d :: updateFirst p f ds

/-- `collection.updateOne({ _id: o }, { $set: sets }, { upsert: true })`:
when a document matches, `$set` is applied to the first match; otherwise a
new document is created from the filter's equality field (`_id`) plus the
`$set` fields, and its `_id` is reported as `upsertedId`. -/
def updateOneSetUpsert (coll : List Doc) (o : String)
    (sets : List (String × BVal)) : List Doc × UpdateResult :=
  match coll.find? (matchesId o) with
  | some d =>
      (updateFirst (matchesId o) (fun d0 => applySet d0 sets) coll,
       ⟨true, 1, if applySet d sets = d then 0 else 1, 0, none⟩)
  | none =>
      (coll ++ [applySet [("_id", .oid o)] sets], ⟨true, 0, 0, 1, some o⟩)

/-- The server's mutable state: the two collections `coffeeDB.coffee` and
`coffeeDB.user` of the remote store. -/
structure DB where
  coffee : List Doc
  user : List Doc
deriving DecidableEq, Repr

/-- An HTTP response body, as produced by the `res.send(...)` calls: a list
of documents (`toArray`), a `findOne` result (possibly `null`), one of the
driver acknowledgment objects, or plain text. -/
inductive Resp where
  | docs (ds : List Doc)
  | docOpt (d : Option Doc)
  | insertRes (r : InsertOneResult)
  | deleteRes (r : DeleteResult)
  | updateRes (r : UpdateResult)
deriving DecidableEq, Repr

/-- A handler outcome: the store state afterwards, and either a response or
the error of an uncaught synchronous throw (no handler has a try/catch). -/
abbrev HandlerResult := DB × Except String Resp

/-- `app.get("/addCoffee")` (src/index.js lines 38-42): `find()` the whole
coffee collection, `toArray`, send it. -/
def getAllCoffee (db : DB) : HandlerResult :=
  (db, .ok (.docs db.coffee))

/-- `app.get("/addCoffee/:id")` (lines 45-50): parse the path id with
`new ObjectId(id)` (throwing on a malformed id before any store call), then
`findOne` by `_id` and send the result. -/
def getCoffeeById (idStr : String) (db : DB) : HandlerResult :=
  match objectIdMake idStr with
  | .error e => (db, .error e)
  | .ok o => (db, .ok (.docOpt (findOneById db.coffee o)))

/-- `app.post("/addCoffee")` (lines 53-58): `insertOne` the JSON body as-is
and send the insert acknowledgment. `genId` is the ObjectId the driver
generates when the body carries no `_id`. -/
def postCoffee (body : Doc) (genId : String) (db : DB) : HandlerResult :=
  let r := insertOne db.coffee body genId
  ({ db with coffee := r.1 }, .ok (.insertRes r.2))

/-- `app.delete("/addCoffee/:id")` (lines 61-66): parse the path id, then
`deleteOne` by `_id` and send the delete acknowledgment. -/
def deleteCoffeeById (idStr : String) (db : DB) : HandlerResult :=
  match objectIdMake idStr with
  | .error e => (db, .error e)
  | .ok o =>
      let r := deleteOneById db.coffee o
      ({ db with coffee := r.1 }, .ok (.deleteRes r.2))

/-- The `$set` document the PUT handler builds (lines 74-83): exactly the six
named fields, each read off the request body by JavaScript member access; an
absent field reads as `undefined`, which the driver serialises as BSON
`null`. -/
def putSetFields (body : Doc) : List (String × BVal) :=
  [("name", (lookupField body "name").getD .null),
   ("supplier", (lookupField body "supplier").getD .null),
   ("taste", (lookupField body "taste").getD .null),
   ("category", (lookupField body "category").getD .null),
   ("details", (lookupField body "details").getD .null),
   ("photo", (lookupField body "photo").getD .null)]

/-- The six field names the PUT handler writes. -/
def sixFieldNames : List String :=
  ["name", "supplier", "taste", "category", "details", "photo"]

/-- `app.put("/addCoffee/:id")` (lines 69-87): parse the path id, then
`updateOne` with the six-field `$set` and `{ upsert: true }`, sending the
update acknowledgment. -/
def putCoffeeById (idStr : String) (body : Doc) (db : DB) : HandlerResult :=
  match objectIdMake idStr with
  | .error e => (db, .error e)
  | .ok o =>
      let r := updateOneSetUpsert db.coffee o (putSetFields body)
      ({ db with coffee := r.1 }, .ok (.updateRes r.2))

/-- `app.post("/users")` (lines 90-95): `insertOne` the body into the user
collection and send the acknowledgment. -/
def postUser (body : Doc) (genId : String) (db : DB) : HandlerResult :=
  let r := insertOne db.user body genId
  ({ db with user := r.1 }, .ok (.insertRes r.2))

/-- `app.get("/users")` (lines 97-101): `find()` the whole user collection,
`toArray`, send it. -/
def getAllUsers (db : DB) : HandlerResult :=
  (db, .ok (.docs db.user))

/-- `app.delete("/users/:id")` (lines 103-108): parse the path id, then
`deleteOne` by `_id` on the user collection. -/
def deleteUserById (idStr : String) (db : DB) : HandlerResult :=
  match objectIdMake idStr with
  | .error e => (db, .error e)
  | .ok o =>
      let r := deleteOneById db.user o
      ({ db with user := r.1 }, .ok (.deleteRes r.2))

/-- `app.get("/")` (lines 125-127): registered outside `run()`, so availably
independent of the connection; `res.send` of a string replies HTTP 200 with
that text and touches no collection. The argument is the connection state
(`none` when the startup connection was never established). -/
def rootRoute (_conn : Option DB) : Nat × String :=
  (200, "coffee server is running")

/-- The body of `async function run()` (lines 28-119) as far as the
connection handshake is concerned: `await client.connect()` is the first
statement of a `try` block whose only other clause is an empty `finally` —
there is no `catch`, so a connect failure propagates out of `run`. -/
def runConnect (connect : Except String Unit) : Except String Unit :=
  match connect with
  | .error e => .error e
  | .ok _ => .ok ()

/-- `promise.catch(handler)` (line 122, `run().catch(console.dir)`): a
rejection is consumed by the handler, which logs it; the resulting promise
carries no unhandled rejection. Returns (log lines, remaining uncaught
error). -/
def promiseCatchLog (p : Except String Unit) : List String × Option String :=
  match p with
  | .error e => ([e], none)
  | .ok _ => ([], none)

/-- Observable outcome of process startup. -/
structure StartupOutcome where
  loggedErrors : List String
  uncaughtError : Option String
  listenerStarted : Bool
deriving DecidableEq, Repr

/-- The top-level script (lines 122-132): `run().catch(console.dir)` followed
unconditionally by `app.listen(port, ...)`. -/
def startup (connect : Except String Unit) : StartupOutcome :=
  let lc := promiseCatchLog (runConnect connect)
  { loggedErrors := lc.1, uncaughtError := lc.2, listenerStarted := true }

/-! ### Helper lemmas on documents and collections -/

theorem lookupField_cons (p : String × BVal) (ps : Doc) (k : String) :
    lookupField (p :: ps) k = if p.1 == k then some p.2 else lookupField ps k := by
  by_cases h : p.1 == k <;> simp [lookupField, List.find?_cons, h]

theorem lookupField_setField_self (d : Doc) (k : String) (v : BVal) :
    lookupField (setField d k v) k = some v := by
  induction d with
  | nil => simp [setField, lookupField_cons]
  | cons p ps ih =>
      by_cases h : p.1 == k
      · simp [setField, h, lookupField_cons]
      · simp [setField, h, lookupField_cons, ih]

theorem lookupField_setField_ne (d : Doc) (k k2 : String) (v : BVal)
    (h : k2 ≠ k) : lookupField (setField d k v) k2 = lookupField d k2 := by
  have hne : ¬ k = k2 := fun hkk => h hkk.symm
  induction d with
  | nil =>
      simp [setField, lookupField_cons, lookupField, beq_iff_eq, hne]
  | cons p ps ih =>
      by_cases hp : p.1 == k
      · have hk : p.1 = k := by simpa [beq_iff_eq] using hp
        simp [setField, hp, lookupField_cons, beq_iff_eq, hk, hne]
      · simp [setField, hp, lookupField_cons, ih]

theorem mem_fieldKeys_setField (d : Doc) (k k2 : String) (v : BVal)
    (h : k2 ∈ fieldKeys (setField d k v)) : k2 ∈ fieldKeys d ∨ k2 = k := by
  induction d with
  | nil => simpa [setField, fieldKeys] using h
  | cons p ps ih =>
      by_cases hp : p.1 == k
      · rcases (by simpa [setField, hp, fieldKeys] using h) with h1 | h1
        · exact Or.inr h1
        · exact Or.inl (by simp [fieldKeys, h1])
      · rcases (by simpa [setField, hp, fieldKeys] using h) with h1 | h1
        · exact Or.inl (by simp [fieldKeys, h1])
        · rcases ih (by simpa [fieldKeys] using h1) with h2 | h2
          · exact Or.inl (by simp [fieldKeys]; exact Or.inr (by simpa [fieldKeys] using h2))
          · exact Or.inr h2

theorem applySet_cons (d : Doc) (s : String × BVal) (sets : List (String × BVal)) :
    applySet d (s :: sets) = applySet (setField d s.1 s.2) sets := rfl

theorem lookupField_applySet_not_mem (sets : List (String × BVal)) (d : Doc)
    (k : String) (h : k ∉ sets.map Prod.fst) :
    lookupField (applySet d sets) k = lookupField d k := by
  induction sets generalizing d with
  | nil => rfl
  | cons s rest ih =>
      have hk : k ≠ s.1 := by
        intro hks; exact h (by simp [hks])
      rw [applySet_cons, ih _ (fun hm => h (by simp at hm ⊢; exact Or.inr hm)),
        lookupField_setField_ne _ _ _ _ hk]

theorem lookupField_applySet_mem (sets : List (String × BVal)) (d : Doc)
    (k : String) (v : BVal) (hnd : (sets.map Prod.fst).Nodup)
    (hmem : (k, v) ∈ sets) :
    lookupField (applySet d sets) k = some v := by
  induction sets generalizing d with
  | nil => cases hmem
  | cons s rest ih =>
      have hnd2 : s.1 ∉ rest.map Prod.fst ∧ (rest.map Prod.fst).Nodup := by
        rw [List.map_cons, List.nodup_cons] at hnd
        exact hnd
      rcases List.mem_cons.mp hmem with h1 | h1
      · subst h1
        rw [applySet_cons, lookupField_applySet_not_mem _ _ _ hnd2.1,
          lookupField_setField_self]
      · rw [applySet_cons]
        exact ih _ hnd2.2 h1

theorem mem_fieldKeys_applySet (sets : List (String × BVal)) (d : Doc)
    (k : String) (h : k ∈ fieldKeys (applySet d sets)) :
    k ∈ fieldKeys d ∨ k ∈ sets.map Prod.fst := by
  induction sets generalizing d with
  | nil => exact Or.inl h
  | cons s rest ih =>
      rcases ih _ (by simpa [applySet_cons] using h) with h1 | h1
      · rcases mem_fieldKeys_setField _ _ _ _ h1 with h2 | h2
        · exact Or.inl h2
        · exact Or.inr (by rw [List.map_cons, h2]; exact List.mem_cons_self _ _)
      · exact Or.inr (by rw [List.map_cons]; exact List.mem_cons_of_mem _ h1)

theorem length_updateFirst {α : Type} (p : α → Bool) (f : α → α) (l : List α) :
    (updateFirst p f l).length = l.length := by
  induction l with
  | nil => rfl
  | cons a l ih => by_cases h : p a <;> simp [updateFirst, h, ih]

theorem get?_updateFirst {α : Type} (p : α → Bool) (f : α → α) (l : List α)
    (i : Nat) :
    (updateFirst p f l).get? i = l.get? i ∨
      (updateFirst p f l).get? i = (l.get? i).map f := by
  induction l generalizing i with
  | nil => simp [updateFirst]
  | cons a l ih =>
      by_cases h : p a
      · cases i with
        | zero => simp [updateFirst, h]
        | succ j => simp [updateFirst, h]
      · cases i with
        | zero => simp [updateFirst, h]
        | succ j => simpa [updateFirst, h] using ih j

theorem mem_updateFirst_of_find (p : Doc → Bool) (f : Doc → Doc) (l : List Doc)
    (d : Doc) (h : l.find? p = some d) : f d ∈ updateFirst p f l := by
  induction l with
  | nil => cases h
  | cons a l ih =>
      by_cases hp : p a
      · have had : a = d := by simpa [List.find?_cons, hp] using h
        subst had
        simp [updateFirst, hp]
      · have h2 : l.find? p = some d := by simpa [List.find?_cons, hp] using h
        simp [updateFirst, hp]
        exact Or.inr (ih h2)

theorem find?_append_right {α : Type} (p : α → Bool) (l1 l2 : List α)
    (h : l1.find? p = none) : (l1 ++ l2).find? p = l2.find? p := by
  induction l1 with
  | nil => rfl
  | cons a l1 ih =>
      by_cases hp : p a
      · simp [List.find?_cons, hp] at h
      · have h2 : l1.find? p = none := by simpa [List.find?_cons, hp] using h
        simpa [List.find?_cons, hp] using ih h2

theorem find?_eraseP_of_countP_le_one {α : Type} (p : α → Bool) (l : List α)
    (h : l.countP p ≤ 1) : (l.eraseP p).find? p = none := by
  induction l with
  | nil => rfl
  | cons a l ih =>
      by_cases hp : p a
      · have hcc : (a :: l).countP p = l.countP p + 1 := by
          simp [List.countP_cons, hp]
        rw [hcc] at h
        have h0 : l.countP p = 0 := by omega
        have hall : ∀ x ∈ l, ¬ p x = true := fun x hx =>
          List.countP_eq_zero.mp h0 x hx
        simpa [List.eraseP_cons, hp] using List.find?_eq_none.mpr hall
      · have hcc : (a :: l).countP p = l.countP p := by
          simp [List.countP_cons, hp]
        rw [hcc] at h
        simpa [List.eraseP_cons, hp, List.find?_cons] using ih h

/-! ### Claim theorems -/

/-- C4: for every request to GET /addCoffee/:id, DELETE /addCoffee/:id,
PUT /addCoffee/:id, or DELETE /users/:id whose path identifier is not a
valid ObjectId string, the handler throws synchronously (the identifier
parse fails) before any database operation: the error is returned uncaught
and both collections are left unchanged. -/
theorem claim_C4_malformed_id_uncaught (idStr : String) (body : Doc) (db : DB)
    (hbad : isValidObjectIdHex idStr = false) :
    ((getCoffeeById idStr db).1 = db ∧
      ∃ e, (getCoffeeById idStr db).2 = .error e) ∧
    ((deleteCoffeeById idStr db).1 = db ∧
      ∃ e, (deleteCoffeeById idStr db).2 = .error e) ∧
    ((putCoffeeById idStr body db).1 = db ∧
      ∃ e, (putCoffeeById idStr body db).2 = .error e) ∧
    ((deleteUserById idStr db).1 = db ∧
      ∃ e, (deleteUserById idStr db).2 = .error e) := by
  simp [getCoffeeById, deleteCoffeeById, putCoffeeById, deleteUserById,
    objectIdMake, hbad]

theorem claim_C4_witness :
    isValidObjectIdHex "not-a-valid-object-id" = false ∧
    (getCoffeeById "not-a-valid-object-id" ⟨[], []⟩).1 = ⟨[], []⟩ ∧
    (∃ e, (putCoffeeById "not-a-valid-object-id" [] ⟨[], []⟩).2 = .error e) :=
  ⟨by decide,
   (claim_C4_malformed_id_uncaught "not-a-valid-object-id" [] ⟨[], []⟩
     (by decide)).1.1,
   (claim_C4_malformed_id_uncaught "not-a-valid-object-id" [] ⟨[], []⟩
     (by decide)).2.2.1.2⟩

/-- C6 counterexample: with a failing connection handshake, the startup
script logs the error through `run().catch(console.dir)`, leaves NO uncaught
error (the rejection is handled), and still starts the HTTP listener — so
the failure is neither uncaught nor fatal, contrary to the claim. -/
theorem claim_C6_counterexample :
    (startup (.error "connect ECONNREFUSED")).loggedErrors =
      ["connect ECONNREFUSED"] ∧
    (startup (.error "connect ECONNREFUSED")).uncaughtError = none ∧
    (startup (.error "connect ECONNREFUSED")).listenerStarted = true :=
  ⟨rfl, rfl, rfl⟩

/-- C6 (amended): if the initial database connection handshake fails, the
error propagates out of `run` (which has no catch clause), is caught and
logged by the `.catch(console.dir)` handler attached to `run()`, and is not
fatal: no uncaught error remains and the HTTP listener still starts. -/
theorem claim_C6_startup_failure_caught (e : String) :
    startup (.error e) = ⟨[e], none, true⟩ := rfl

/-- C7: GET /addCoffee and GET /users return an array whose length equals
the current number of documents in the coffee and the user collection
respectively, with every stored document included. -/
theorem claim_C7_list_endpoints (db : DB) :
    (∃ r, (getAllCoffee db).2 = .ok (.docs r) ∧ r.length = db.coffee.length ∧
      ∀ d ∈ db.coffee, d ∈ r) ∧
    (∃ r, (getAllUsers db).2 = .ok (.docs r) ∧ r.length = db.user.length ∧
      ∀ d ∈ db.user, d ∈ r) :=
  ⟨⟨db.coffee, rfl, rfl, fun _ h => h⟩, ⟨db.user, rfl, rfl, fun _ h => h⟩⟩

/-- C8: GET / replies HTTP 200 with the literal text
"coffee server is running" for every connection state, including `none`
(connection never established), and its reply does not depend on that state
(it performs no database operation). -/
theorem claim_C8_root_route (conn : Option DB) :
    rootRoute conn = (200, "coffee server is running") ∧
    ∀ conn2, rootRoute conn = rootRoute conn2 :=
  ⟨rfl, fun _ => rfl⟩

/-- C10: every coffee-route handler leaves the user collection unchanged and
every user-route handler leaves the coffee collection unchanged; moreover no
handler reads the other collection: its response and its effect on its own
collection are the same for any contents of the other collection. -/
theorem claim_C10_collection_isolation (db : DB) (idStr genId : String)
    (body : Doc) :
    ((getAllCoffee db).1.user = db.user ∧
     (getCoffeeById idStr db).1.user = db.user ∧
     (postCoffee body genId db).1.user = db.user ∧
     (deleteCoffeeById idStr db).1.user = db.user ∧
     (putCoffeeById idStr body db).1.user = db.user) ∧
    ((postUser body genId db).1.coffee = db.coffee ∧
     (getAllUsers db).1.coffee = db.coffee ∧
     (deleteUserById idStr db).1.coffee = db.coffee) ∧
    (∀ u1 u2 : List Doc,
      (getAllCoffee ⟨db.coffee, u1⟩).2 = (getAllCoffee ⟨db.coffee, u2⟩).2 ∧
      (getCoffeeById idStr ⟨db.coffee, u1⟩).2 =
        (getCoffeeById idStr ⟨db.coffee, u2⟩).2 ∧
      (postCoffee body genId ⟨db.coffee, u1⟩).2 =
        (postCoffee body genId ⟨db.coffee, u2⟩).2 ∧
      (postCoffee body genId ⟨db.coffee, u1⟩).1.coffee =
        (postCoffee body genId ⟨db.coffee, u2⟩).1.coffee ∧
      (deleteCoffeeById idStr ⟨db.coffee, u1⟩).2 =
        (deleteCoffeeById idStr ⟨db.coffee, u2⟩).2 ∧
      (deleteCoffeeById idStr ⟨db.coffee, u1⟩).1.coffee =
        (deleteCoffeeById idStr ⟨db.coffee, u2⟩).1.coffee ∧
      (putCoffeeById idStr body ⟨db.coffee, u1⟩).2 =
        (putCoffeeById idStr body ⟨db.coffee, u2⟩).2 ∧
      (putCoffeeById idStr body ⟨db.coffee, u1⟩).1.coffee =
        (putCoffeeById idStr body ⟨db.coffee, u2⟩).1.coffee) ∧
    (∀ c1 c2 : List Doc,
      (getAllUsers ⟨c1, db.user⟩).2 = (getAllUsers ⟨c2, db.user⟩).2 ∧
      (postUser body genId ⟨c1, db.user⟩).2 =
        (postUser body genId ⟨c2, db.user⟩).2 ∧
      (postUser body genId ⟨c1, db.user⟩).1.user =
        (postUser body genId ⟨c2, db.user⟩).1.user ∧
      (deleteUserById idStr ⟨c1, db.user⟩).2 =
        (deleteUserById idStr ⟨c2, db.user⟩).2 ∧
      (deleteUserById idStr ⟨c1, db.user⟩).1.user =
        (deleteUserById idStr ⟨c2, db.user⟩).1.user) := by
  cases hi : objectIdMake idStr <;>
    refine ⟨⟨rfl, ?_, rfl, ?_, ?_⟩, ⟨rfl, rfl, ?_⟩, ?_, ?_⟩ <;>
    simp [getAllCoffee, getCoffeeById, postCoffee, deleteCoffeeById,
      putCoffeeById, postUser, getAllUsers, deleteUserById, hi]

/-- C1: for every coffee document D (with no caller-supplied `_id`) inserted
via POST /addCoffee under a driver-generated fresh ObjectId, a subsequent
GET /addCoffee/:id with that identifier returns exactly D plus the generated
`_id` field. -/
theorem claim_C1_insert_then_get (D : Doc) (genId : String) (db : DB)
    (hid : lookupField D "_id" = none)
    (hgen : objectIdMake genId = .ok genId)
    (hfresh : ∀ d ∈ db.coffee, matchesId genId d = false) :
    (getCoffeeById genId (postCoffee D genId db).1).2 =
      .ok (.docOpt (some (("_id", .oid genId) :: D))) := by
  have hnone : db.coffee.find? (matchesId genId) = none :=
    List.find?_eq_none.mpr (fun d hd => by simp [hfresh d hd])
  have hmatch : matchesId genId (("_id", .oid genId) :: D) = true := by
    simp [matchesId, lookupField_cons]
  simp only [postCoffee, insertOne, hid, getCoffeeById, hgen, findOneById]
  rw [find?_append_right _ _ _ hnone]
  simp [List.find?_cons, hmatch]

theorem claim_C1_witness :
    lookupField [("name", BVal.str "Latte")] "_id" = none ∧
    objectIdMake "0123456789abcdef01234567" = .ok "0123456789abcdef01234567" ∧
    (getCoffeeById "0123456789abcdef01234567"
      (postCoffee [("name", BVal.str "Latte")] "0123456789abcdef01234567"
        ⟨[], []⟩).1).2 =
      .ok (.docOpt (some [("_id", BVal.oid "0123456789abcdef01234567"),
        ("name", BVal.str "Latte")])) :=
  ⟨by decide, rfl,
   claim_C1_insert_then_get [("name", BVal.str "Latte")]
     "0123456789abcdef01234567" ⟨[], []⟩ (by decide) rfl
     (fun d hd => absurd hd (List.not_mem_nil d))⟩

/-- C5: for an identifier present (exactly once, per the store's unique
`_id` index) in the coffee collection, DELETE /addCoffee/:id followed by
GET /addCoffee/:id finds no document. -/
theorem claim_C5_delete_then_get (idStr o : String) (db : DB)
    (hparse : objectIdMake idStr = .ok o)
    (hcount : db.coffee.countP (matchesId o) = 1) :
    (getCoffeeById idStr (deleteCoffeeById idStr db).1).2 =
      .ok (.docOpt none) := by
  have hnone : (db.coffee.eraseP (matchesId o)).find? (matchesId o) = none :=
    find?_eraseP_of_countP_le_one _ _ (le_of_eq hcount)
  cases hf : db.coffee.find? (matchesId o) with
  | none =>
      have hall : ∀ x ∈ db.coffee, ¬ matchesId o x = true :=
        List.find?_eq_none.mp hf
      have h0 : db.coffee.countP (matchesId o) = 0 :=
        List.countP_eq_zero.mpr hall
      omega
  | some d =>
      simp [deleteCoffeeById, hparse, deleteOneById, hf, getCoffeeById,
        findOneById, hnone]

theorem claim_C5_witness :
    objectIdMake "0123456789abcdef01234567" = .ok "0123456789abcdef01234567" ∧
    ([[("_id", BVal.oid "0123456789abcdef01234567")]] : List Doc).countP
      (matchesId "0123456789abcdef01234567") = 1 ∧
    (getCoffeeById "0123456789abcdef01234567"
      (deleteCoffeeById "0123456789abcdef01234567"
        ⟨[[("_id", BVal.oid "0123456789abcdef01234567")]], []⟩).1).2 =
      .ok (.docOpt none) :=
  ⟨rfl, by decide,
   claim_C5_delete_then_get "0123456789abcdef01234567"
     "0123456789abcdef01234567"
     ⟨[[("_id", BVal.oid "0123456789abcdef01234567")]], []⟩ rfl (by decide)⟩

/-- C2: for a well-formed identifier not present in the coffee collection,
PUT /addCoffee/:id with a body carrying all six named fields upserts a new
record (appended to the collection) whose `_id` is the given identifier and
whose six named fields equal the corresponding fields of the body. -/
theorem claim_C2_put_upsert_creates (idStr o : String) (body : Doc) (db : DB)
    (hparse : objectIdMake idStr = .ok o)
    (habsent : db.coffee.find? (matchesId o) = none)
    (hfull : ∀ k ∈ sixFieldNames, (lookupField body k).isSome = true) :
    ∃ r, (putCoffeeById idStr body db).1.coffee = db.coffee ++ [r] ∧
      lookupField r "_id" = some (.oid o) ∧
      ∀ k ∈ sixFieldNames, lookupField r k = lookupField body k := by
  have hkeys : (putSetFields body).map Prod.fst = sixFieldNames := rfl
  have hnd : ((putSetFields body).map Prod.fst).Nodup := by rw [hkeys]; decide
  refine ⟨applySet [("_id", .oid o)] (putSetFields body), ?_, ?_, ?_⟩
  · simp [putCoffeeById, hparse, updateOneSetUpsert, habsent]
  · rw [lookupField_applySet_not_mem _ _ _ (by rw [hkeys]; decide)]
    simp [lookupField_cons]
  · intro k hk
    obtain ⟨v, hv⟩ := Option.isSome_iff_exists.mp (hfull k hk)
    have hmem : (k, (lookupField body k).getD .null) ∈ putSetFields body := by
      fin_cases hk <;> simp [putSetFields]
    rw [lookupField_applySet_mem _ _ _ _ hnd hmem, hv]
    rfl

theorem claim_C2_witness :
    objectIdMake "abcdefabcdefabcdefabcdef" = .ok "abcdefabcdefabcdefabcdef" ∧
    (([] : List Doc).find? (matchesId "abcdefabcdefabcdefabcdef") = none) ∧
    (∀ k ∈ sixFieldNames,
      (lookupField [("name", BVal.str "Latte"), ("supplier", BVal.str "Acme"),
        ("taste", BVal.str "mild"), ("category", BVal.str "espresso"),
        ("details", BVal.str "hot"), ("photo", BVal.str "url")] k).isSome =
        true) ∧
    (∃ r, (putCoffeeById "abcdefabcdefabcdefabcdef"
        [("name", BVal.str "Latte"), ("supplier", BVal.str "Acme"),
         ("taste", BVal.str "mild"), ("category", BVal.str "espresso"),
         ("details", BVal.str "hot"), ("photo", BVal.str "url")]
        ⟨[], []⟩).1.coffee = [] ++ [r] ∧
      lookupField r "_id" = some (.oid "abcdefabcdefabcdefabcdef") ∧
      ∀ k ∈ sixFieldNames, lookupField r k =
        lookupField [("name", BVal.str "Latte"), ("supplier", BVal.str "Acme"),
          ("taste", BVal.str "mild"), ("category", BVal.str "espresso"),
          ("details", BVal.str "hot"), ("photo", BVal.str "url")] k) :=
  ⟨rfl, by decide, by decide,
   claim_C2_put_upsert_creates "abcdefabcdefabcdefabcdef"
     "abcdefabcdefabcdefabcdef"
     [("name", BVal.str "Latte"), ("supplier", BVal.str "Acme"),
      ("taste", BVal.str "mild"), ("category", BVal.str "espresso"),
      ("details", BVal.str "hot"), ("photo", BVal.str "url")]
     ⟨[], []⟩ rfl (by decide) (by decide)⟩

/-- C9: every PUT /addCoffee/:id with a well-formed identifier leaves in the
collection a record with that `_id` (the matched record, or the upserted
one) whose six named fields are all overwritten with the body's values,
where a field absent from the body is written as BSON null rather than kept
at its previous value. -/
theorem claim_C9_put_overwrites_all_six (idStr o : String) (body : Doc)
    (db : DB) (hparse : objectIdMake idStr = .ok o) :
    ∃ r, r ∈ (putCoffeeById idStr body db).1.coffee ∧
      lookupField r "_id" = some (.oid o) ∧
      (∀ k ∈ sixFieldNames,
        lookupField r k = some ((lookupField body k).getD .null)) ∧
      (∀ k ∈ sixFieldNames, lookupField body k = none →
        lookupField r k = some BVal.null) := by
  have hkeys : (putSetFields body).map Prod.fst = sixFieldNames := rfl
  have hnd : ((putSetFields body).map Prod.fst).Nodup := by rw [hkeys]; decide
  have hmemset : ∀ k ∈ sixFieldNames,
      (k, (lookupField body k).getD .null) ∈ putSetFields body := by
    intro k hk; fin_cases hk <;> simp [putSetFields]
  cases hf : db.coffee.find? (matchesId o) with
  | some d0 =>
      have hm : matchesId o d0 = true := List.find?_some hf
      have hd0 : lookupField d0 "_id" = some (BVal.oid o) := by
        simpa [matchesId, beq_iff_eq] using hm
      refine ⟨applySet d0 (putSetFields body), ?_, ?_, ?_, ?_⟩
      · simp only [putCoffeeById, hparse, updateOneSetUpsert, hf]
        exact mem_updateFirst_of_find _ _ _ _ hf
      · rw [lookupField_applySet_not_mem _ _ _ (by rw [hkeys]; decide)]
        exact hd0
      · intro k hk
        rw [lookupField_applySet_mem _ _ _ _ hnd (hmemset k hk)]
      · intro k hk hkn
        rw [lookupField_applySet_mem _ _ _ _ hnd (hmemset k hk), hkn]
        rfl
  | none =>
      refine ⟨applySet [("_id", .oid o)] (putSetFields body), ?_, ?_, ?_, ?_⟩
      · simp [putCoffeeById, hparse, updateOneSetUpsert, hf]
      · rw [lookupField_applySet_not_mem _ _ _ (by rw [hkeys]; decide)]
        simp [lookupField_cons]
      · intro k hk
        rw [lookupField_applySet_mem _ _ _ _ hnd (hmemset k hk)]
      · intro k hk hkn
        rw [lookupField_applySet_mem _ _ _ _ hnd (hmemset k hk), hkn]
        rfl

theorem claim_C9_witness :
    objectIdMake "0123456789abcdef01234567" = .ok "0123456789abcdef01234567" ∧
    (∃ r, r ∈ (putCoffeeById "0123456789abcdef01234567" []
        ⟨[], []⟩).1.coffee ∧
      lookupField r "_id" = some (.oid "0123456789abcdef01234567") ∧
      (∀ k ∈ sixFieldNames,
        lookupField r k = some ((lookupField ([] : Doc) k).getD .null)) ∧
      (∀ k ∈ sixFieldNames, lookupField ([] : Doc) k = none →
        lookupField r k = some BVal.null)) :=
  ⟨rfl,
   claim_C9_put_overwrites_all_six "0123456789abcdef01234567"
     "0123456789abcdef01234567" [] ⟨[], []⟩ rfl⟩

/-- C3: a PUT /addCoffee/:id on an identifier present in the coffee
collection preserves the collection's length, and for every record of the
collection (in particular the matched one) the `_id` field and every field
outside the six named ones keep their stored value, while no field outside
the six (and the record's existing keys) is added — fields of the request
body outside the six are never written. The user collection is untouched. -/
theorem claim_C3_put_frame (idStr o : String) (body : Doc) (db : DB)
    (hparse : objectIdMake idStr = .ok o)
    (hpresent : (db.coffee.find? (matchesId o)).isSome = true) :
    (putCoffeeById idStr body db).1.user = db.user ∧
    (putCoffeeById idStr body db).1.coffee.length = db.coffee.length ∧
    ∀ i : Nat, ∀ d d2 : Doc, db.coffee.get? i = some d →
      (putCoffeeById idStr body db).1.coffee.get? i = some d2 →
      lookupField d2 "_id" = lookupField d "_id" ∧
      (∀ k, k ∉ sixFieldNames → lookupField d2 k = lookupField d k) ∧
      (∀ k, k ∈ fieldKeys d2 → k ∈ fieldKeys d ∨ k ∈ sixFieldNames) := by
  obtain ⟨d0, hf⟩ := Option.isSome_iff_exists.mp hpresent
  have hkeys : (putSetFields body).map Prod.fst = sixFieldNames := rfl
  have hcoffee : (putCoffeeById idStr body db).1.coffee =
      updateFirst (matchesId o) (fun x => applySet x (putSetFields body))
        db.coffee := by
    simp [putCoffeeById, hparse, updateOneSetUpsert, hf]
  refine ⟨?_, ?_, ?_⟩
  · simp [putCoffeeById, hparse, updateOneSetUpsert, hf]
  · rw [hcoffee, length_updateFirst]
  · intro i d d2 hd hd2
    rw [hcoffee] at hd2
    rcases get?_updateFirst (matchesId o)
        (fun x => applySet x (putSetFields body)) db.coffee i with hcase | hcase
    · rw [hcase, hd] at hd2
      have hd2e : d2 = d := by simpa using hd2.symm
      subst hd2e
      exact ⟨rfl, fun k _ => rfl, fun k hk => Or.inl hk⟩
    · rw [hcase, hd] at hd2
      have hd2e : d2 = applySet d (putSetFields body) := by
        simpa using hd2.symm
      subst hd2e
      refine ⟨?_, ?_, ?_⟩
      · exact lookupField_applySet_not_mem _ _ _ (by rw [hkeys]; decide)
      · intro k hk
        exact lookupField_applySet_not_mem _ _ _ (by rw [hkeys]; exact hk)
      · intro k hk
        rcases mem_fieldKeys_applySet _ _ _ hk with h1 | h1
        · exact Or.inl h1
        · exact Or.inr (by rwa [hkeys] at h1)

theorem claim_C3_witness :
    objectIdMake "0123456789abcdef01234567" = .ok "0123456789abcdef01234567" ∧
    (([[("_id", BVal.oid "0123456789abcdef01234567"),
        ("name", BVal.str "Old"), ("origin", BVal.str "Peru")]] :
      List Doc).find? (matchesId "0123456789abcdef01234567")).isSome = true ∧
    (putCoffeeById "0123456789abcdef01234567"
      [("name", BVal.str "New"), ("junk", BVal.str "z")]
      ⟨[[("_id", BVal.oid "0123456789abcdef01234567"),
         ("name", BVal.str "Old"), ("origin", BVal.str "Peru")]],
        []⟩).1.coffee.length =
      ([[("_id", BVal.oid "0123456789abcdef01234567"),
         ("name", BVal.str "Old"), ("origin", BVal.str "Peru")]] :
        List Doc).length :=
  ⟨rfl, by decide,
   (claim_C3_put_frame "0123456789abcdef01234567" "0123456789abcdef01234567"
     [("name", BVal.str "New"), ("junk", BVal.str "z")]
     ⟨[[("_id", BVal.oid "0123456789abcdef01234567"),
        ("name", BVal.str "Old"), ("origin", BVal.str "Peru")]], []⟩
     rfl (by decide)).2.1⟩

end CoffeeStore
